import Mathlib

/-!
Shallow embedding of `fiobank.py` (class `FioBank`): the statement decoder
(`_parse_transactions` and its helpers), the payment-order builder
(`add_payment` / `prepare_payment`), and the `last` dispatcher.

Python values are modelled by `PyVal` (floats as exact rationals), Python
exceptions by `PyErr`, and Python dictionaries used as records by functions
`String → Option PyVal` (absent key = `Option.none`; a key bound to Python
`None` = `some PyVal.none`).  Fallible code returns `Except PyErr _`; the
transaction generator is modelled as an eager list that stops at the first
raised error, which is what a consumer iterating it to the end observes.
-/

namespace Fiobank

/-- A calendar date as produced by `datetime.date` (used by `date.today()`,
`coerce_date` and payment stamping). -/
structure PyDate where
  year : Nat
  month : Nat
  day : Nat
deriving DecidableEq

/-- Python values occurring in the adapter: `None`, strings, numbers
(`float` modelled as an exact rational), `datetime.date` objects, dicts and
lists.  The JSON bodies consumed by the decoder and the keyword dictionaries
passed to the builder are all drawn from this type. -/
inductive PyVal where
  | none
  | str (s : String)
  | num (q : Rat)
  | date (d : PyDate)
  | dict (fields : List (String × PyVal))
  | list (elems : List PyVal)

/-- Python exceptions raised by the embedded code.  The spec's taxonomy maps
onto these: its `SchemaError` is the `KeyError` from the schema-table lookup,
its `ValidationError` is the `ValueError`/`KeyError` raised before any
network I/O, its `FormatError` is the `ValueError` from `strptime`. -/
inductive PyErr where
  | keyError (key : String)
  | typeError
  | attributeError
  | valueError (msg : String)
  | nameError (name : String)
deriving DecidableEq

/-- Python truthiness (`bool(value)`) for the modelled values. -/
def truthy : PyVal → Bool
  | .none => false
  | .str s => !s.data.isEmpty
  | .num q => q != 0
  | .date _ => true
  | .dict l => !l.isEmpty
  | .list l => !l.isEmpty

/-- Python `s.lower()` (ASCII case folding, which is all the column keys
use). -/
def pyLower (s : String) : String := String.mk (s.data.map Char.toLower)

/-- Python `s.strip()`: drop leading and trailing whitespace. -/
def pyStrip (s : String) : String :=
  String.mk (((s.data.dropWhile Char.isWhitespace).reverse.dropWhile
    Char.isWhitespace).reverse)

/-- First-match association-list lookup; the lists standing for Python dicts
are built with pairwise-distinct keys, as real dicts are. -/
def dlookup : List (String × PyVal) → String → Option PyVal
  | [], _ => Option.none
  | (k, v) :: rest, key => if k = key then some v else dlookup rest key

/-- Python subscription `value[key]` with a string key: dict lookup
(`KeyError` when the key is absent), `TypeError` on every non-dict value
(`None`, numbers, strings and lists all refuse a string subscript). -/
def getItem (v : PyVal) (key : String) : Except PyErr PyVal :=
  match v with
  | .dict fields =>
    match dlookup fields key with
    | some w => .ok w
    | Option.none => .error (.keyError key)
  | _ => .error .typeError

/-- Python `value.items()`: the pairs of a dict, `AttributeError` otherwise. -/
def pyItems : PyVal → Except PyErr (List (String × PyVal))
  | .dict fields => .ok fields
  | _ => .error .attributeError

/-- Python iteration `for x in value`: lists yield elements, dicts their
keys, strings their characters; other values raise `TypeError`. -/
def pyIter : PyVal → Except PyErr (List PyVal)
  | .list l => .ok l
  | .dict fields => .ok (fields.map (fun p => .str p.1))
  | .str s => .ok (s.data.map (fun c => .str (String.singleton c)))
  | _ => .error .typeError

/-- Zero-pad a number below 100 to two digits (day/month of an ISO date). -/
def pad2 (n : Nat) : String := if n < 10 then "0" ++ toString n else toString n

/-- Zero-pad a number below 10000 to four digits (year of an ISO date). -/
def pad4 (n : Nat) : String :=
  if n < 10 then "000" ++ toString n
  else if n < 100 then "00" ++ toString n
  else if n < 1000 then "0" ++ toString n
  else toString n

/-- `str(d)` for a `datetime.date`: ISO `YYYY-MM-DD`. -/
def dateToStr (d : PyDate) : String :=
  pad4 d.year ++ "-" ++ pad2 d.month ++ "-" ++ pad2 d.day

/-- Python `str(value)` for the values the adapter stringifies.  Strings and
dates are rendered exactly as Python does; the renderings of `None`, numbers
and containers are abstract placeholders (no claim evaluates them: the
builder and formatter are only ever fed strings and dates in the theorems
below, matching the library's own usage). -/
def pyStr : PyVal → String
  | .none => "None"
  | .str s => s
  | .num q => toString q
  | .date d => dateToStr d
  | .dict _ => "dict"
  | .list _ => "list"

/-- Split a character list into its maximal digit prefix and the rest
(the regex atom `\d*` / the digit scanning of `float`). -/
def takeDigits : List Char → List Char × List Char
  | [] => ([], [])
  | c :: r =>
    if c.isDigit then
      let p := takeDigits r
      (c :: p.1, p.2)
    else ([], c :: r)

/-- Numeric value of a digit string. -/
def digitsToNat (ds : List Char) : Nat :=
  ds.foldl (fun a c => 10 * a + (c.toNat - 48)) 0

/-- Python `float(s)` on the decimal literals arising in this adapter:
optional sign, a nonempty integer digit run, an optional `.` followed by a
(possibly empty) fraction digit run.  (The exotic inputs `float` also
accepts — exponents, `inf`, leading dots, underscores — never reach it
here.)  Returns `Option.none` where `float` raises `ValueError`. -/
def parseFloatL (cs : List Char) : Option Rat :=
  let sign : Bool × List Char :=
    match cs with
    | '-' :: r => (true, r)
    | '+' :: r => (false, r)
    | _ => (false, cs)
  let p1 := takeDigits sign.2
  if p1.1.isEmpty then Option.none
  else
    let intPart : Rat := (digitsToNat p1.1 : Nat)
    let finish : Rat → Option Rat := fun v => some (if sign.1 then -v else v)
    match p1.2 with
    | [] => finish intPart
    | '.' :: r =>
      let p2 := takeDigits r
      if p2.2.isEmpty then
        finish (intPart + (digitsToNat p2.1 : Rat) / ((10 : Rat) ^ p2.1.length))
      else Option.none
    | _ => Option.none

/-- String form of `float(s)`. -/
def parseFloat (s : String) : Option Rat := parseFloatL s.data

/-- `FioBank._amount_re.match(s)` as a Boolean: does a PREFIX of `s`
(anchored at position 0, `re.match` semantics) match
`\-?\d+(\.\d+)? [A-Z]{3}`?  Greedy digit runs need no backtracking here
because the token after each run (`.` or a space) can never be a digit. -/
def matchAmountL (cs : List Char) : Bool :=
  let cs1 := match cs with | '-' :: r => r | _ => cs
  let p1 := takeDigits cs1
  if p1.1.isEmpty then false
  else
    let rest :=
      match p1.2 with
      | '.' :: r =>
        let p2 := takeDigits r
        if p2.1.isEmpty then '.' :: r else p2.2
      | other => other
    match rest with
    | ' ' :: a :: b :: c :: _ => a.isUpper && b.isUpper && c.isUpper
    | _ => false

/-- String form of the regex prefix match. -/
def matchAmount (s : String) : Bool := matchAmountL s.data

/-- Python `s.split(' ')` over characters: split on every single space,
keeping empty chunks. -/
def splitSpacesL : List Char → List (List Char)
  | [] => [[]]
  | ' ' :: r => [] :: splitSpacesL r
  | c :: r =>
    match splitSpacesL r with
    | h :: t => (c :: h) :: t
    | [] => [[c]]

/-- String form of `s.split(' ')`. -/
def pySplit (s : String) : List String :=
  (splitSpacesL s.data).map (fun l => String.mk l)

/-- Gregorian leap-year rule (used by `strptime`'s day-of-month check). -/
def isLeap (y : Nat) : Bool := (y % 4 = 0 && y % 100 != 0) || y % 400 = 0

/-- Days in a month of the proleptic Gregorian calendar. -/
def daysInMonth (y m : Nat) : Nat :=
  if m = 2 then (if isLeap y then 29 else 28)
  else if m = 4 ∨ m = 6 ∨ m = 9 ∨ m = 11 then 30
  else 31

/-- Value of a two-digit pair. -/
def digit2 (a b : Char) : Nat := 10 * (a.toNat - 48) + (b.toNat - 48)

/-- `datetime.strptime(s, "%Y-%m-%d").date()` on a ten-character slice:
four year digits, `-`, two month digits, `-`, two day digits, with the
month and day validated against the calendar.  `Option.none` where
`strptime` raises `ValueError`. -/
def parseISODate (s : String) : Option PyDate :=
  match s.data with
  | [y1, y2, y3, y4, '-', m1, m2, '-', d1, d2] =>
    if y1.isDigit && y2.isDigit && y3.isDigit && y4.isDigit &&
       m1.isDigit && m2.isDigit && d1.isDigit && d2.isDigit then
      let y := digitsToNat [y1, y2, y3, y4]
      let m := digit2 m1 m2
      let d := digit2 d1 d2
      if 1 ≤ m && m ≤ 12 && 1 ≤ d && d ≤ daysInMonth y m then
        some ⟨y, m, d⟩
      else Option.none
    else Option.none
  | _ => Option.none

/-- `coerce_date(value)`: `datetime`/`date` objects pass through (both are
modelled as `PyVal.date`), strings have their first ten characters parsed
with `strptime('%Y-%m-%d')`, anything else fails slicing with `TypeError`. -/
def coerce_date (value : PyVal) : Except PyErr PyDate :=
  match value with
  | .date d => .ok d
  | .str s =>
    match parseISODate (String.mk (s.data.take 10)) with
    | some d => .ok d
    | Option.none => .error (.valueError "strptime")
  | _ => .error .typeError

/-- The conversion callables stored in the schema tables: `coerce_date`,
`float`, `str`. -/
inductive Conv where
  | convDate
  | convFloat
  | convStr
deriving DecidableEq

/-- Application of a schema conversion to a value. -/
def applyConv : Conv → PyVal → Except PyErr PyVal
  | .convDate, v =>
    match coerce_date v with
    | .ok d => .ok (.date d)
    | .error e => .error e
  | .convFloat, v =>
    match v with
    | .num q => .ok (.num q)
    | .str s =>
      match parseFloat s with
      | some q => .ok (.num q)
      | Option.none => .error (.valueError "float")
    | _ => .error .typeError
  | .convStr, v => .ok (.str (pyStr v))

/-- `sanitize_value(value, convert)`: strings are stripped and an empty
result becomes `None`; when a conversion is given and the value is not
`None`, the conversion is applied. -/
def sanitize_value (value : PyVal) (convert : Option Conv) : Except PyErr PyVal :=
  let value :=
    match value with
    | .str s => if (pyStrip s).data.isEmpty then PyVal.none else PyVal.str (pyStrip s)
    | v => v
  match convert, value with
  | some _, PyVal.none => .ok PyVal.none
  | some conv, v => applyConv conv v
  | Option.none, v => .ok v

/-- `FioBank.transaction_schema`: column key → (field name, conversion). -/
def transaction_schema : List (String × String × Conv) :=
  [("column0", "date", .convDate),
   ("column1", "amount", .convFloat),
   ("column2", "account_number", .convStr),
   ("column3", "bank_code", .convStr),
   ("column4", "constant_symbol", .convStr),
   ("column5", "variable_symbol", .convStr),
   ("column6", "specific_symbol", .convStr),
   ("column7", "user_identification", .convStr),
   ("column8", "type", .convStr),
   ("column9", "executor", .convStr),
   ("column10", "account_name", .convStr),
   ("column12", "bank_name", .convStr),
   ("column14", "currency", .convStr),
   ("column16", "recipient_message", .convStr),
   ("column17", "instruction_id", .convStr),
   ("column18", "specification", .convStr),
   ("column22", "transaction_id", .convStr),
   ("column25", "comment", .convStr),
   ("column26", "bic", .convStr)]

/-- `schema[key]` as a partial lookup (`Option.none` = Python `KeyError`). -/
def lookupSchema (key : String) : Option (String × Conv) :=
  (transaction_schema.find? (fun p => p.1 == key)).map (fun p => p.2)

/-- The field names declared by the transaction schema. -/
def schemaFieldNames : List String := transaction_schema.map (fun p => p.2.1)

/-- A Python dict used as a record: absent key ↦ `Option.none`, key bound to
`None` ↦ `some PyVal.none`. -/
abbrev Dict := String → Option PyVal

/-- A decoded transaction record. -/
abbrev Trans := Dict

/-- The fresh `trans = {}` of each loop iteration. -/
def emptyDict : Dict := fun _ => Option.none

/-- `d[k] = v`: insert or overwrite. -/
def dset (t : Dict) (k : String) (v : PyVal) : Dict :=
  fun x => if x = k then some v else t x

/-- `d.setdefault(k, v)`: insert only when the key is absent. -/
def dsetdefault (t : Dict) (k : String) (v : PyVal) : Dict :=
  fun x => if x = k then some ((t k).getD v) else t x

/-- Build a `Dict` from a literal association list. -/
def dictOf (l : List (String × PyVal)) : Dict := fun k => dlookup l k

/-- The first loop of `_parse_transactions`: for each column of the entry,
skip falsy column data, look the lower-cased key up in the schema (Python
`KeyError` when unknown), subscript the column data with `'value'`,
sanitize/convert, and store under the schema's field name. -/
def processColumns (t : Dict) : List (String × PyVal) → Except PyErr Dict
  | [] => .ok t
  | (c, v) :: rest =>
    if truthy v then
      match lookupSchema (pyLower c) with
      | Option.none => .error (.keyError (pyLower c))
      | some (f, conv) =>
        match getItem v "value" with
        | .error e => .error e
        | .ok raw =>
          match sanitize_value raw (some conv) with
          | .error e => .error e
          | .ok sv => processColumns (dset t f sv) rest
    else processColumns t rest

/-- The second loop: `trans.setdefault(field_name, None)` for every schema
field, making the record schema-complete. -/
def fillDefaults (t : Dict) : Dict :=
  transaction_schema.foldl (fun acc p => dsetdefault acc p.2.1 PyVal.none) t

/-- The `specification` refinement: when `trans.get('specification')` is a
string on which `_amount_re.match` succeeds, split it on spaces and unpack
into `float(amount)` and the currency chunk (Python raises `ValueError` when
the split does not have exactly two parts, and `re.match` on a non-string,
non-`None` value raises `TypeError`); otherwise both derived fields are
`None`. -/
def addOriginal (t : Trans) : Except PyErr Trans :=
  match (t "specification").getD PyVal.none with
  | PyVal.none =>
    .ok (dset (dset t "original_amount" PyVal.none) "original_currency" PyVal.none)
  | .str s =>
    if matchAmount s then
      match pySplit s with
      | [a, c] =>
        match parseFloat a with
        | some q =>
          .ok (dset (dset t "original_amount" (.num q)) "original_currency" (.str c))
        | Option.none => .error (.valueError "float")
      | _ => .error (.valueError "unpack")
    else
      .ok (dset (dset t "original_amount" PyVal.none) "original_currency" PyVal.none)
  | _ => .error .typeError

/-- `_add_account_number_full(obj)`: the derived
`account_number_full = "{account_number}/{bank_code}"`, `None` unless both
parts are non-`None`. -/
def add_account_number_full (t : Dict) : Dict :=
  let an := (t "account_number").getD PyVal.none
  let bc := (t "bank_code").getD PyVal.none
  let full :=
    match an, bc with
    | PyVal.none, _ => PyVal.none
    | _, PyVal.none => PyVal.none
    | a, b => PyVal.str (pyStr a ++ "/" ++ pyStr b)
  dset t "account_number_full" full

/-- One iteration of the generator body of `_parse_transactions`. -/
def parse_entry (entry : PyVal) : Except PyErr Trans :=
  match pyItems entry with
  | .error e => .error e
  | .ok cols =>
    match processColumns emptyDict cols with
    | .error e => .error e
    | .ok t =>
      match addOriginal (fillDefaults t) with
      | .error e => .error e
      | .ok t2 => .ok (add_account_number_full t2)

/-- Run the generator body over each entry in order, stopping at the first
raised exception — what a consumer draining the generator observes. -/
def mapExcept (f : PyVal → Except PyErr Trans) : List PyVal → Except PyErr (List Trans)
  | [] => .ok []
  | a :: rest =>
    match f a with
    | .error e => .error e
    | .ok b =>
      match mapExcept f rest with
      | .error e => .error e
      | .ok bs => .ok (b :: bs)

/-- `data['accountStatement']['transactionList']['transaction']`. -/
def getEntries (data : PyVal) : Except PyErr PyVal := do
  let a ← getItem data "accountStatement"
  let b ← getItem a "transactionList"
  getItem b "transaction"

/-- `FioBank._parse_transactions(data)`: extract the entry list (only a
`TypeError` along the subscription path is caught and turned into `[]`),
iterate it, and run the generator body per entry. -/
def _parse_transactions (data : PyVal) : Except PyErr (List Trans) :=
  let entriesV : Except PyErr PyVal :=
    match getEntries data with
    | .error .typeError => .ok (.list [])
    | r => r
  match entriesV with
  | .error e => .error e
  | .ok ev =>
    match pyIter ev with
    | .error e => .error e
    | .ok entries => mapExcept parse_entry entries

/-- A well-shaped statement payload around a given entry list. -/
def mkPayload (entries : List PyVal) : PyVal :=
  .dict [("accountStatement",
    .dict [("transactionList", .dict [("transaction", .list entries)])])]

/-- One serialized XML sub-element of a payment order: tag and text. -/
structure OrderElem where
  tag : String
  text : String
deriving DecidableEq

/-- One payment order: the kind tag of its element and its field
sub-elements in the order they were attached. -/
structure Payment where
  kind : String
  elems : List OrderElem
deriving DecidableEq

/-- The required-field loop of `add_payment`: for each field name, look it
up in the caller's dict (Python `KeyError` naming the field when absent) and
attach a sub-element whose text is `str(value)`. -/
def attachRequired (data : Dict) : List String → Except PyErr (List OrderElem)
  | [] => .ok []
  | f :: rest =>
    match data f with
    | Option.none => .error (.keyError f)
    | some v =>
      match attachRequired data rest with
      | .error e => .error e
      | .ok es => .ok (⟨f, pyStr v⟩ :: es)

/-- The optional-field loop: attach only the fields present in the dict. -/
def attachOptional (data : Dict) : List String → List OrderElem
  | [] => []
  | f :: rest =>
    match data f with
    | some v => ⟨f, pyStr v⟩ :: attachOptional data rest
    | Option.none => attachOptional data rest

/-- The `DomesticTransaction` required field set.  The source writes the
field sets as Python set literals, whose iteration order is unspecified;
they are modelled in literal order and no theorem below depends on the
order, only on membership. -/
def domestic_required : List String :=
  ["accountFrom", "currency", "amount", "accountTo", "bankCode", "date"]

/-- The `DomesticTransaction` optional field set. -/
def domestic_optional : List String :=
  ["ks", "vs", "ss", "messageForRecipient", "comment", "paymentReason", "paymentType"]

/-- `FioBank.add_payment(data, payment_type)`.  `date.today()` is passed in
explicitly as `today`.  Only the `'DomesticTransaction'` branch of the
dispatch is reachable: the two `elif` arms compare the undefined name
`paymentType` (the parameter is spelled `payment_type`), so every other kind
— including `'T2Transaction'` and `'ForeignTransaction'` — raises
`NameError('paymentType')` before the order element is created or `data` is
touched.  On the reachable branch `data['date']` is overwritten with
`str(today)` before the required-field loop runs; the returned dict is the
caller's dict after this in-place mutation, whether or not the loop later
raises. -/
def add_payment (data : Dict) (payment_type : String) (today : PyDate) :
    Dict × Except PyErr Payment :=
  if payment_type = "DomesticTransaction" then
    let data2 := dset data "date" (.str (dateToStr today))
    match attachRequired data2 domestic_required with
    | .error e => (data2, .error e)
    | .ok reqElems =>
      (data2, .ok ⟨payment_type, reqElems ++ attachOptional data2 domestic_optional⟩)
  else
    (data, .error (.nameError "paymentType"))

/-- The accumulated payment submission: the `Orders` element's children. -/
structure FioState where
  payment_orders : List Payment
deriving DecidableEq

/-- `add_payment` together with its final `self.payment_orders.append`,
which runs only when no exception was raised earlier in the body. -/
def add_payment_s (st : FioState) (data : Dict) (payment_type : String)
    (today : PyDate) : FioState × Dict × Except PyErr Payment :=
  match add_payment data payment_type today with
  | (d2, .ok p) => (⟨st.payment_orders ++ [p]⟩, d2, .ok p)
  | (d2, .error e) => (st, d2, .error e)

/-- The network requests `last` can issue, in order. -/
inductive FioAction where
  | setLastId (id : String)
  | setLastDate (d : PyDate)
  | lastFetch
deriving DecidableEq

/-- `FioBank.last(from_id, from_date)` up to the network boundary: the
conflicting-constraints check (Python truthiness on both arguments), then
the optional `set-last-id` / `set-last-date` request and the final `last`
fetch.  Returns the requests issued in order and the exception raised
before the fetch completes, if any; decoding of the fetched body is
`_parse_transactions` applied to a network body, hence outside this
function. -/
def last (from_id from_date : PyVal) : List FioAction × Option PyErr :=
  if truthy from_id && truthy from_date then
    ([], some (.valueError "Only one constraint is allowed."))
  else if truthy from_id then
    ([.setLastId (pyStr from_id), .lastFetch], Option.none)
  else if truthy from_date then
    match coerce_date from_date with
    | .ok d => ([.setLastDate d, .lastFetch], Option.none)
    | .error e => ([], some e)
  else
    ([.lastFetch], Option.none)

/-- Modelled from the spec: the spec reads "matches the pattern
`-?\d+(\.\d+)? [A-Z]{3}`" as the WHOLE string matching — a number, one
space, exactly three uppercase letters, end of string.  Stated only to be
compared with the source's prefix-matching `matchAmount`. -/
def specFullMatch (s : String) : Bool :=
  let cs := s.data
  let cs1 := match cs with | '-' :: r => r | _ => cs
  let p1 := takeDigits cs1
  if p1.1.isEmpty then false
  else
    let rest :=
      match p1.2 with
      | '.' :: r =>
        let p2 := takeDigits r
        if p2.1.isEmpty then '.' :: r else p2.2
      | other => other
    match rest with
    | [' ', a, b, c] => a.isUpper && b.isUpper && c.isUpper
    | _ => false

/-- The fields a truthy column of an entry would write, in entry order. -/
def truthyFields (cols : List (String × PyVal)) : List String :=
  cols.filterMap (fun p =>
    if truthy p.2 then (lookupSchema (pyLower p.1)).map Prod.fst else Option.none)

/-- Extract the transaction list of a successful decode (used to name
concrete decode results in closed statements). -/
def okList : Except PyErr (List Trans) → List Trans
  | .ok l => l
  | _ => []

/-- Head transaction of a successful decode (the junk value on the error
path never equals a decoded record's fields, so equations on `headTrans`
also certify success). -/
def headTrans : Except PyErr (List Trans) → Trans
  | .ok (t :: _) => t
  | _ => emptyDict

/-- Extract the order of a successful `add_payment`. -/
def okPayment : Dict × Except PyErr Payment → Payment
  | (_, .ok p) => p
  | _ => ⟨"", []⟩

/-- A fixed `date.today()` for the concrete instantiations below. -/
def sampleToday : PyDate := ⟨2026, 10, 12⟩

/-- A complete `DomesticTransaction` request, including a caller-supplied
`date` that the builder must discard. -/
def domData : Dict := dictOf
  [("accountFrom", .str "2001731496"), ("currency", .str "CZK"),
   ("amount", .str "23.3"), ("accountTo", .str "234-344532"),
   ("bankCode", .str "0343"), ("date", .str "1999-12-31")]

/-- A complete request for the `T2Transaction` kind. -/
def t2Data : Dict := dictOf
  [("accountFrom", .str "2001731496"), ("currency", .str "EUR"),
   ("amount", .str "10"), ("accountTo", .str "234-344532"),
   ("bankCode", .str "0343")]

/-- A request carrying every `ForeignTransaction` required field. -/
def foreignData : Dict := dictOf
  [("accountFrom", .str "2001731496"), ("currency", .str "USD"),
   ("amount", .str "10"), ("accountTo", .str "234-344532"),
   ("bic", .str "TESTBICX"), ("benefName", .str "John Doe"),
   ("benefStreet", .str "Street 1"), ("benefCity", .str "City"),
   ("benefCountry", .str "US"), ("remittanceInfo1", .str "info"),
   ("detailsOfCharges", .str "470501"), ("paymentReason", .str "348")]

/-- Columns of a one-column statement entry. -/
def sampleCols : List (String × PyVal) :=
  [("column22", .dict [("value", .str "T1")])]

/-- The corresponding entry and payload. -/
def sampleEntry : PyVal := .dict sampleCols

/-- A one-entry statement payload. -/
def samplePayload : PyVal := mkPayload [sampleEntry]

/-- Its decoded transaction list. -/
def sampleTs : List Trans := okList (_parse_transactions samplePayload)

/-- A payload whose sole entry has specification `"1 ABCD"`: a PREFIX of it
matches the amount pattern while the whole string does not. -/
def cex5Payload : PyVal :=
  mkPayload [.dict [("column18", .dict [("value", .str "1 ABCD")])]]

/-- A payload whose sole entry has specification `"7 EUR"`. -/
def w5Payload : PyVal :=
  mkPayload [.dict [("column18", .dict [("value", .str "7 EUR")])]]

end Fiobank

/-! ## Helper lemmas -/

namespace Fiobank

theorem parse_mkPayload (entries : List PyVal) :
    _parse_transactions (mkPayload entries) = mapExcept parse_entry entries := rfl

theorem mapExcept_ok_append_error {f : PyVal → Except PyErr Trans}
    {l1 : List PyVal} {ts : List Trans} (a : PyVal) (l2 : List PyVal) {e : PyErr}
    (h1 : mapExcept f l1 = .ok ts) (h2 : f a = .error e) :
    mapExcept f (l1 ++ a :: l2) = .error e := by
  induction l1 generalizing ts with
  | nil =>
    rw [List.nil_append]
    unfold mapExcept
    rw [h2]
  | cons b l1 ih =>
    rw [List.cons_append]
    unfold mapExcept at h1 ⊢
    cases hb : f b with
    | error eb =>
      rw [hb] at h1
      exact Except.noConfusion h1
    | ok tb =>
      rw [hb] at h1
      have h1b : (match mapExcept f l1 with
          | .error e => Except.error e
          | .ok bs => Except.ok (tb :: bs)) = .ok ts := h1
      cases hl : mapExcept f l1 with
      | error el =>
        rw [hl] at h1b
        exact Except.noConfusion h1b
      | ok tl =>
        show (match mapExcept f (l1 ++ a :: l2) with
          | .error e => Except.error e
          | .ok bs => Except.ok (tb :: bs)) = .error e
        rw [ih hl]

theorem mapExcept_ok_spec {f : PyVal → Except PyErr Trans} :
    ∀ {l : List PyVal} {ts : List Trans}, mapExcept f l = .ok ts →
      ts.length = l.length ∧
      ∀ i (hi : i < l.length) (hti : i < ts.length),
        f (l.get ⟨i, hi⟩) = .ok (ts.get ⟨i, hti⟩) := by
  intro l
  induction l with
  | nil =>
    intro ts h
    cases h
    exact ⟨rfl, fun i hi => absurd hi (Nat.not_lt_zero i)⟩
  | cons a l ih =>
    intro ts h
    unfold mapExcept at h
    cases ha : f a with
    | error e => rw [ha] at h; cases h
    | ok b =>
      rw [ha] at h
      cases hl : mapExcept f l with
      | error e => rw [hl] at h; cases h
      | ok bs =>
        rw [hl] at h
        cases h
        obtain ⟨hlen, hget⟩ := ih hl
        refine ⟨by simp [hlen], ?_⟩
        intro i hi hti
        cases i with
        | zero => simpa using ha
        | succ j =>
          have hj : j < l.length := Nat.lt_of_succ_lt_succ hi
          have htj : j < bs.length := Nat.lt_of_succ_lt_succ hti
          simpa using hget j hj htj

theorem mapExcept_mem {f : PyVal → Except PyErr Trans} :
    ∀ {l : List PyVal} {ts : List Trans} {t : Trans},
      mapExcept f l = .ok ts → t ∈ ts → ∃ a, a ∈ l ∧ f a = .ok t := by
  intro l
  induction l with
  | nil => intro ts t h ht; cases h; cases ht
  | cons a l ih =>
    intro ts t h ht
    unfold mapExcept at h
    cases ha : f a with
    | error e => rw [ha] at h; cases h
    | ok b =>
      rw [ha] at h
      cases hl : mapExcept f l with
      | error e => rw [hl] at h; cases h
      | ok bs =>
        rw [hl] at h
        cases h
        rcases List.mem_cons.1 ht with rfl | hmem
        · exact ⟨a, List.mem_cons_self a l, ha⟩
        · obtain ⟨a2, ha2, hfa2⟩ := ih hl hmem
          exact ⟨a2, List.mem_cons_of_mem a ha2, hfa2⟩

theorem attachRequired_elem {data : Dict} :
    ∀ {l : List String} {es : List OrderElem}, attachRequired data l = .ok es →
      ∀ e ∈ es, e.tag ∈ l ∧ ∃ v, data e.tag = some v ∧ e.text = pyStr v := by
  intro l
  induction l with
  | nil => intro es h e he; cases h; cases he
  | cons f rest ih =>
    intro es h e he
    unfold attachRequired at h
    cases hd : data f with
    | none => rw [hd] at h; cases h
    | some v =>
      rw [hd] at h
      cases hr : attachRequired data rest with
      | error e2 => rw [hr] at h; cases h
      | ok es0 =>
        rw [hr] at h
        cases h
        rcases List.mem_cons.1 he with rfl | hmem
        · exact ⟨List.mem_cons_self _ _, v, hd, rfl⟩
        · obtain ⟨htag, w, hw, htext⟩ := ih hr e hmem
          exact ⟨List.mem_cons_of_mem _ htag, w, hw, htext⟩

theorem attachRequired_tags {data : Dict} :
    ∀ {l : List String} {es : List OrderElem}, attachRequired data l = .ok es →
      es.map OrderElem.tag = l := by
  intro l
  induction l with
  | nil => intro es h; cases h; rfl
  | cons f rest ih =>
    intro es h
    unfold attachRequired at h
    cases hd : data f with
    | none => rw [hd] at h; cases h
    | some v =>
      rw [hd] at h
      cases hr : attachRequired data rest with
      | error e2 => rw [hr] at h; cases h
      | ok es0 =>
        rw [hr] at h
        cases h
        simp [ih hr]

theorem attachOptional_elem {data : Dict} :
    ∀ {l : List String} (e : OrderElem), e ∈ attachOptional data l →
      e.tag ∈ l ∧ ∃ v, data e.tag = some v ∧ e.text = pyStr v := by
  intro l
  induction l with
  | nil => intro e he; cases he
  | cons f rest ih =>
    intro e he
    unfold attachOptional at he
    cases hd : data f with
    | none =>
      rw [hd] at he
      obtain ⟨htag, w, hw, htext⟩ := ih e he
      exact ⟨List.mem_cons_of_mem _ htag, w, hw, htext⟩
    | some v =>
      rw [hd] at he
      rcases List.mem_cons.1 he with rfl | hmem
      · exact ⟨List.mem_cons_self _ _, v, hd, rfl⟩
      · obtain ⟨htag, w, hw, htext⟩ := ih e hmem
        exact ⟨List.mem_cons_of_mem _ htag, w, hw, htext⟩

theorem processColumns_unknown {c : String} {v : PyVal}
    (hv : truthy v = true) (hc : lookupSchema (pyLower c) = Option.none)
    (cols2 : List (String × PyVal)) :
    ∀ (cols1 : List (String × PyVal)) (t t' : Dict),
      processColumns t cols1 = .ok t' →
      processColumns t (cols1 ++ (c, v) :: cols2) =
        .error (.keyError (pyLower c)) := by
  intro cols1
  induction cols1 with
  | nil =>
    intro t t' h
    rw [List.nil_append]
    unfold processColumns
    rw [if_pos hv, hc]
  | cons p rest ih =>
    intro t t' h
    obtain ⟨c1, v1⟩ := p
    rw [List.cons_append]
    unfold processColumns at h ⊢
    by_cases hv1 : truthy v1 = true
    · rw [if_pos hv1] at h ⊢
      cases hl : lookupSchema (pyLower c1) with
      | none =>
        rw [hl] at h
        exact Except.noConfusion h
      | some p2 =>
        rw [hl] at h
        obtain ⟨f1, conv1⟩ := p2
        have h2 : (match getItem v1 "value" with
            | .error e => Except.error e
            | .ok raw =>
              match sanitize_value raw (some conv1) with
              | .error e => Except.error e
              | .ok sv => processColumns (dset t f1 sv) rest) = .ok t' := h
        cases hg : getItem v1 "value" with
        | error e =>
          rw [hg] at h2
          exact Except.noConfusion h2
        | ok raw =>
          rw [hg] at h2
          have h3 : (match sanitize_value raw (some conv1) with
              | .error e => Except.error e
              | .ok sv => processColumns (dset t f1 sv) rest) = .ok t' := h2
          cases hsv : sanitize_value raw (some conv1) with
          | error e =>
            rw [hsv] at h3
            exact Except.noConfusion h3
          | ok sv =>
            rw [hsv] at h3
            show (match sanitize_value raw (some conv1) with
                | .error e => Except.error e
                | .ok sv => processColumns (dset t f1 sv)
                    (rest ++ (c, v) :: cols2)) =
              .error (.keyError (pyLower c))
            rw [hsv]
            exact ih (dset t f1 sv) t' h3
    · rw [if_neg hv1] at h ⊢
      exact ih t t' h

theorem addOriginal_spec_str {t : Trans} {s : String}
    (h : (t "specification").getD PyVal.none = PyVal.str s) :
    addOriginal t =
      if matchAmount s then
        (match pySplit s with
         | [a, c] =>
           (match parseFloat a with
            | some q =>
              .ok (dset (dset t "original_amount" (.num q))
                "original_currency" (.str c))
            | Option.none => .error (.valueError "float"))
         | _ => .error (.valueError "unpack"))
      else
        .ok (dset (dset t "original_amount" PyVal.none)
          "original_currency" PyVal.none) := by
  unfold addOriginal
  rw [h]

theorem addOriginal_ok_cases {t t' : Trans} (h : addOriginal t = .ok t') :
    ((t "specification").getD PyVal.none = PyVal.none ∧
      t' = dset (dset t "original_amount" PyVal.none)
        "original_currency" PyVal.none) ∨
    (∃ s, (t "specification").getD PyVal.none = PyVal.str s ∧
      ((matchAmount s = false ∧
        t' = dset (dset t "original_amount" PyVal.none)
          "original_currency" PyVal.none) ∨
       (matchAmount s = true ∧ ∃ a c q, pySplit s = [a, c] ∧
        parseFloat a = some q ∧
        t' = dset (dset t "original_amount" (.num q))
          "original_currency" (.str c)))) := by
  cases hs : (t "specification").getD PyVal.none with
  | none =>
    have hred : addOriginal t =
        .ok (dset (dset t "original_amount" PyVal.none)
          "original_currency" PyVal.none) := by
      unfold addOriginal
      rw [hs]
    rw [hred] at h
    injection h with h2
    exact Or.inl ⟨rfl, h2.symm⟩
  | str s =>
    rw [addOriginal_spec_str hs] at h
    refine Or.inr ⟨s, rfl, ?_⟩
    by_cases hm : matchAmount s = true
    · rw [if_pos hm] at h
      refine Or.inr ⟨hm, ?_⟩
      cases hsp : pySplit s with
      | nil =>
        rw [hsp] at h
        exact Except.noConfusion h
      | cons a rest =>
        cases rest with
        | nil =>
          rw [hsp] at h
          exact Except.noConfusion h
        | cons c2 rest2 =>
          cases rest2 with
          | nil =>
            rw [hsp] at h
            have h4 : (match parseFloat a with
                | some q => Except.ok (dset (dset t "original_amount" (.num q))
                    "original_currency" (.str c2))
                | Option.none => Except.error (PyErr.valueError "float")) =
              Except.ok t' := h
            cases hq : parseFloat a with
            | none =>
              rw [hq] at h4
              exact Except.noConfusion h4
            | some q =>
              rw [hq] at h4
              injection h4 with h2
              exact ⟨a, c2, q, rfl, hq, h2.symm⟩
          | cons d rest3 =>
            rw [hsp] at h
            exact Except.noConfusion h
    · rw [if_neg hm] at h
      injection h with h2
      refine Or.inl ⟨?_, h2.symm⟩
      cases hval : matchAmount s
      · rfl
      · exact absurd hval hm
  | num q =>
    have hred : addOriginal t = .error .typeError := by
      unfold addOriginal
      rw [hs]
    rw [hred] at h
    exact Except.noConfusion h
  | date d =>
    have hred : addOriginal t = .error .typeError := by
      unfold addOriginal
      rw [hs]
    rw [hred] at h
    exact Except.noConfusion h
  | dict l =>
    have hred : addOriginal t = .error .typeError := by
      unfold addOriginal
      rw [hs]
    rw [hred] at h
    exact Except.noConfusion h
  | list l =>
    have hred : addOriginal t = .error .typeError := by
      unfold addOriginal
      rw [hs]
    rw [hred] at h
    exact Except.noConfusion h

theorem addOriginal_frame {t t' : Trans} (h : addOriginal t = .ok t')
    (f : String) (h1 : f ≠ "original_amount") (h2 : f ≠ "original_currency") :
    t' f = t f := by
  rcases addOriginal_ok_cases h with ⟨-, rfl⟩ |
    ⟨s, -, ⟨-, rfl⟩ | ⟨-, a, c, q, -, -, rfl⟩⟩ <;>
  simp [dset, h1, h2]

theorem add_account_number_full_frame (t : Dict) (f : String)
    (h : f ≠ "account_number_full") : add_account_number_full t f = t f := by
  unfold add_account_number_full
  simp [dset, h]

end Fiobank

/-! ## Claim theorems -/

namespace Fiobank

/-- C1: contrary to the claim, only the `'DomesticTransaction'` kind is
usable.  For every other `payment_type` — including the documented
`'T2Transaction'` and `'ForeignTransaction'` kinds and any unknown kind —
`add_payment` raises `NameError` (the `elif` arms read the undefined name
`paymentType`), not `ValidationError`; no order is created or appended and
the caller's dict is untouched. -/
theorem add_payment_non_domestic_nameerror
    (st : FioState) (data : Dict) (payment_type : String) (today : PyDate)
    (h : payment_type ≠ "DomesticTransaction") :
    add_payment_s st data payment_type today =
      (st, data, .error (.nameError "paymentType")) := by
  simp [add_payment_s, add_payment, h]

/-- Witness for `add_payment_non_domestic_nameerror`: a complete
`T2Transaction` request raises `NameError('paymentType')`. -/
theorem add_payment_non_domestic_nameerror_witness :
    ("T2Transaction" : String) ≠ "DomesticTransaction" ∧
    add_payment_s ⟨[]⟩ t2Data "T2Transaction" sampleToday =
      (⟨[]⟩, t2Data, .error (.nameError "paymentType")) :=
  ⟨by decide,
   add_payment_non_domestic_nameerror ⟨[]⟩ t2Data "T2Transaction" sampleToday
     (by decide)⟩

/-- C3 (evaluation at the failing input): a `ForeignTransaction` request
carrying every required field of that kind does not succeed as the claim
demands — it raises `NameError('paymentType')` before any validation, and
no order is appended. -/
theorem foreign_payment_nameerror_eval :
    add_payment_s ⟨[]⟩ foreignData "ForeignTransaction" sampleToday =
      (⟨[]⟩, foreignData, .error (.nameError "paymentType")) := rfl

/-- C6: every order `add_payment` successfully returns carries a `date`
element whose text is today's stringified date, and every `date` element of
the order has that text — the caller-supplied `date` value never appears. -/
theorem add_payment_date_today (data : Dict) (payment_type : String)
    (today : PyDate) (d2 : Dict) (p : Payment)
    (h : add_payment data payment_type today = (d2, .ok p)) :
    (⟨"date", dateToStr today⟩ : OrderElem) ∈ p.elems ∧
    ∀ e ∈ p.elems, e.tag = "date" → e.text = dateToStr today := by
  unfold add_payment at h
  by_cases hk : payment_type = "DomesticTransaction"
  · rw [if_pos hk] at h
    dsimp only at h
    cases hr : attachRequired (dset data "date" (.str (dateToStr today)))
        domestic_required with
    | error e =>
      rw [hr] at h
      exact absurd (congrArg Prod.snd h) (by simp)
    | ok reqElems =>
      rw [hr] at h
      have hp := congrArg Prod.snd h
      dsimp only at hp
      injection hp with hp2
      subst hp2
      have hv2 : (dset data "date" (PyVal.str (dateToStr today))) "date" =
          some (PyVal.str (dateToStr today)) := by simp [dset]
      constructor
      · have htags := attachRequired_tags hr
        have hdate : "date" ∈ reqElems.map OrderElem.tag := by
          rw [htags]; decide
        obtain ⟨e, he, htag⟩ := List.mem_map.1 hdate
        obtain ⟨-, v, hv, htext⟩ := attachRequired_elem hr e he
        rw [htag, hv2] at hv
        injection hv with hv3
        have he2 : e = ⟨"date", dateToStr today⟩ := by
          cases e
          dsimp only at htag htext
          subst htag
          subst htext
          rw [← hv3]
          rfl
        rw [← he2]
        exact List.mem_append_left _ he
      · intro e he htag
        rcases List.mem_append.1 he with hmem | hmem
        · obtain ⟨-, v, hv, htext⟩ := attachRequired_elem hr e hmem
          rw [htag, hv2] at hv
          injection hv with hv3
          rw [htext, ← hv3]
          rfl
        · obtain ⟨htagmem, -⟩ := attachOptional_elem e hmem
          rw [htag] at htagmem
          exact absurd htagmem (by decide)
  · rw [if_neg hk] at h
    exact absurd (congrArg Prod.snd h) (by simp)

/-- Witness for `add_payment_date_today`: the concrete domestic request
(whose caller-supplied `date` is `"1999-12-31"`) yields an order stamped
`"2026-10-12"`. -/
theorem add_payment_date_today_witness :
    (⟨"date", "2026-10-12"⟩ : OrderElem) ∈
      (okPayment (add_payment domData "DomesticTransaction" sampleToday)).elems :=
  (add_payment_date_today domData "DomesticTransaction" sampleToday
    (add_payment domData "DomesticTransaction" sampleToday).1
    (okPayment (add_payment domData "DomesticTransaction" sampleToday)) rfl).1

/-- C7 counterexample: a payload whose transaction list is ABSENT (the
`accountStatement` mapping lacks the `transactionList` key) does not decode
to the empty sequence — `_parse_transactions` raises `KeyError`, because
only `TypeError` is caught on the subscription path. -/
theorem absent_key_raises_counterexample :
    _parse_transactions (.dict [("accountStatement", .dict [])]) =
      .error (.keyError "transactionList") := rfl

/-- C7 amended: only a TYPE MISMATCH along
`data['accountStatement']['transactionList']['transaction']` is treated as
an empty transaction list; a mapping on the path that lacks the next key
raises `KeyError` instead. -/
theorem transaction_list_leniency_amended (data : PyVal) :
    (getEntries data = .error .typeError → _parse_transactions data = .ok []) ∧
    (∀ k, getEntries data = .error (.keyError k) →
      _parse_transactions data = .error (.keyError k)) := by
  constructor
  · intro h
    unfold _parse_transactions
    rw [h]
    rfl
  · intro k h
    unfold _parse_transactions
    rw [h]

/-- Witness for `transaction_list_leniency_amended`: a `None` payload (type
mismatch) decodes to the empty list; a payload lacking the
`transactionList` key raises `KeyError('transactionList')`. -/
theorem transaction_list_leniency_amended_witness :
    (getEntries PyVal.none = .error .typeError ∧
      _parse_transactions PyVal.none = .ok []) ∧
    (getEntries (.dict [("accountStatement", .dict [("info", .dict [])])]) =
        .error (.keyError "transactionList") ∧
      _parse_transactions (.dict [("accountStatement", .dict [("info", .dict [])])]) =
        .error (.keyError "transactionList")) :=
  ⟨⟨rfl, (transaction_list_leniency_amended PyVal.none).1 rfl⟩,
   ⟨rfl, (transaction_list_leniency_amended _).2 "transactionList" rfl⟩⟩

/-- C8 counterexample: both constraints are SET (`from_id` to the empty
string, `from_date` to a date string), yet `last` raises nothing — it
issues the `set-last-date` request and the fetch.  The conflict check uses
truthiness, not presence. -/
theorem last_falsy_counterexample :
    last (.str "") (.str "2024-01-01") =
      ([.setLastDate ⟨2024, 1, 1⟩, .lastFetch], Option.none) := rfl

/-- C8 amended: when both `from_id` and `from_date` are set to TRUTHY
values, `last` fails with `ValueError('Only one constraint is allowed.')`
before issuing any request; a supplied falsy value counts as unset. -/
theorem last_both_truthy_validation (from_id from_date : PyVal)
    (h1 : truthy from_id = true) (h2 : truthy from_date = true) :
    last from_id from_date =
      ([], some (.valueError "Only one constraint is allowed.")) := by
  simp [last, h1, h2]

/-- Witness for `last_both_truthy_validation`. -/
theorem last_both_truthy_validation_witness :
    truthy (.str "123") = true ∧ truthy (.str "2024-01-01") = true ∧
    last (.str "123") (.str "2024-01-01") =
      ([], some (.valueError "Only one constraint is allowed.")) :=
  ⟨rfl, rfl, last_both_truthy_validation _ _ rfl rfl⟩

/-- C9: `last` decides the conflict check by truthiness.  A falsy `from_id`
is treated as unset: no error, the `set-last-id` request is skipped, the
`set-last-date` request and the fetch are issued; symmetrically a falsy
`from_date` is treated as unset. -/
theorem last_truthiness :
    (∀ from_id from_date d, truthy from_id = false → truthy from_date = true →
      coerce_date from_date = .ok d →
      last from_id from_date = ([.setLastDate d, .lastFetch], Option.none)) ∧
    (∀ from_id from_date, truthy from_id = true → truthy from_date = false →
      last from_id from_date =
        ([.setLastId (pyStr from_id), .lastFetch], Option.none)) := by
  constructor
  · intro fid fdate d h1 h2 h3
    simp [last, h1, h2, h3]
  · intro fid fdate h1 h2
    simp [last, h1, h2]

/-- Witness for `last_truthiness`: `from_id = ""` (supplied but falsy) with
a valid `from_date`, and a truthy `from_id` with `from_date = None`. -/
theorem last_truthiness_witness :
    truthy (.str "") = false ∧ truthy (.str "2024-02-03") = true ∧
    coerce_date (.str "2024-02-03") = .ok ⟨2024, 2, 3⟩ ∧
    last (.str "") (.str "2024-02-03") =
      ([.setLastDate ⟨2024, 2, 3⟩, .lastFetch], Option.none) ∧
    truthy (.str "42") = true ∧ truthy PyVal.none = false ∧
    last (.str "42") PyVal.none = ([.setLastId "42", .lastFetch], Option.none) :=
  ⟨rfl, rfl, rfl, last_truthiness.1 _ _ _ rfl rfl rfl, rfl, rfl,
   last_truthiness.2 _ _ rfl rfl⟩

/-- C10: `add_payment` with the (only reachable) `'DomesticTransaction'`
kind mutates the caller's dict in place: `data['date']` is set to today's
stringified date before validation, the mutation persists whether the call
returns an order or raises on a missing required field, and no other key
changes. -/
theorem add_payment_mutates_date (data : Dict) (today : PyDate) :
    (add_payment data "DomesticTransaction" today).1 "date" =
      some (.str (dateToStr today)) ∧
    ∀ k, k ≠ "date" →
      (add_payment data "DomesticTransaction" today).1 k = data k := by
  have hfst : (add_payment data "DomesticTransaction" today).1 =
      dset data "date" (.str (dateToStr today)) := by
    unfold add_payment
    rw [if_pos rfl]
    dsimp only
    cases attachRequired (dset data "date" (.str (dateToStr today)))
      domestic_required <;> rfl
  rw [hfst]
  constructor
  · simp [dset]
  · intro k hk
    simp [dset, hk]

/-- Witness for `add_payment_mutates_date`: on the concrete domestic
request the `date` key is overwritten and the `amount` key is untouched,
even though this call succeeds (and the same dict is returned on failing
calls). -/
theorem add_payment_mutates_date_witness :
    (add_payment domData "DomesticTransaction" sampleToday).1 "date" =
      some (.str "2026-10-12") ∧
    (("amount" : String) ≠ "date") ∧
    (add_payment domData "DomesticTransaction" sampleToday).1 "amount" =
      domData "amount" :=
  ⟨(add_payment_mutates_date domData sampleToday).1, by decide,
   (add_payment_mutates_date domData sampleToday).2 "amount" (by decide)⟩

/-- C2: a statement payload whose transaction list contains an entry with a
truthy column whose lower-cased key is not in the transaction schema makes
`_parse_transactions` raise the schema lookup failure (the spec's
`SchemaError`, Python's `KeyError` naming the unknown lower-cased column)
when that entry is consumed — the column is surfaced as an error, not
skipped. -/
theorem unknown_column_raises
    (entries entries2 : List PyVal) (cols cols2 : List (String × PyVal))
    (c : String) (v : PyVal) (ts : List Trans) (t : Dict)
    (hpre : mapExcept parse_entry entries = .ok ts)
    (hcols : processColumns emptyDict cols = .ok t)
    (hv : truthy v = true)
    (hc : lookupSchema (pyLower c) = Option.none) :
    _parse_transactions
        (mkPayload (entries ++ PyVal.dict (cols ++ (c, v) :: cols2) :: entries2)) =
      .error (.keyError (pyLower c)) := by
  rw [parse_mkPayload]
  apply mapExcept_ok_append_error _ _ hpre
  show (match processColumns emptyDict (cols ++ (c, v) :: cols2) with
      | .error e => Except.error e
      | .ok t1 =>
        match addOriginal (fillDefaults t1) with
        | .error e => Except.error e
        | .ok t2 => Except.ok (add_account_number_full t2)) =
    .error (.keyError (pyLower c))
  rw [processColumns_unknown hv hc cols2 cols emptyDict t hcols]

/-- Witness for `unknown_column_raises`: a one-entry payload whose only
column key is the unknown `columnX`. -/
theorem unknown_column_raises_witness :
    truthy (PyVal.dict [("value", .str "x")]) = true ∧
    lookupSchema (pyLower "columnX") = Option.none ∧
    _parse_transactions
        (mkPayload [PyVal.dict [("columnX", PyVal.dict [("value", .str "x")])]]) =
      .error (.keyError (pyLower "columnX")) :=
  ⟨rfl, rfl,
   unknown_column_raises [] [] [] [] "columnX" (PyVal.dict [("value", .str "x")])
     [] emptyDict rfl rfl rfl rfl⟩

/-- C5 counterexample: the specification `"1 ABCD"` does not match the
pattern as a whole (the claim therefore demands null derived fields), yet
the decoder — which uses `re.match`, a PREFIX match — extracts
`original_amount = 1.0` and `original_currency = "ABCD"`. -/
theorem specification_prefix_counterexample :
    specFullMatch "1 ABCD" = false ∧
    matchAmount "1 ABCD" = true ∧
    headTrans (_parse_transactions cex5Payload) "original_currency" =
      some (.str "ABCD") ∧
    headTrans (_parse_transactions cex5Payload) "original_amount" =
      some (.num 1) :=
  ⟨rfl, rfl, rfl, rfl⟩

/-- C5 amended: the extraction is prefix-based.  For every transaction the
decoder produces whose `specification` is the string `s`: when no prefix of
`s` matches the pattern, both derived fields are null; when a prefix
matches, `s` was split on spaces into exactly two parts (the split having
exactly two parts is forced, because with any other number of parts the
unpacking raises `ValueError` and no transaction is produced — the last
conjunct), `original_amount` is the `float` of the first part and
`original_currency` is the ENTIRE remainder after the single space, which
may be longer than three letters. -/
theorem specification_extraction_amended
    (entries : List PyVal) (ts : List Trans) (t : Trans) (s : String)
    (hp : _parse_transactions (mkPayload entries) = .ok ts)
    (ht : t ∈ ts)
    (hs : t "specification" = some (.str s)) :
    ((matchAmount s = false →
      t "original_amount" = some PyVal.none ∧
      t "original_currency" = some PyVal.none) ∧
     (matchAmount s = true →
      ∃ a c q, pySplit s = [a, c] ∧ parseFloat a = some q ∧
        t "original_amount" = some (.num q) ∧
        t "original_currency" = some (.str c))) ∧
    (∀ t0 : Trans, t0 "specification" = some (.str s) → matchAmount s = true →
      (pySplit s).length ≠ 2 →
      addOriginal t0 = .error (.valueError "unpack")) := by
  constructor
  · rw [parse_mkPayload] at hp
    obtain ⟨entry, hmem, hpe⟩ := mapExcept_mem hp ht
    unfold parse_entry at hpe
    cases hit : pyItems entry with
    | error e =>
      rw [hit] at hpe
      exact Except.noConfusion hpe
    | ok cols =>
      rw [hit] at hpe
      have hpeA : (match processColumns emptyDict cols with
          | .error e => Except.error e
          | .ok t1 =>
            match addOriginal (fillDefaults t1) with
            | .error e => Except.error e
            | .ok t2 => Except.ok (add_account_number_full t2)) =
          Except.ok t := hpe
      cases hpc : processColumns emptyDict cols with
      | error e =>
        rw [hpc] at hpeA
        exact Except.noConfusion hpeA
      | ok t1 =>
        rw [hpc] at hpeA
        have hpeB : (match addOriginal (fillDefaults t1) with
            | .error e => Except.error e
            | .ok t2 => Except.ok (add_account_number_full t2)) =
            Except.ok t := hpeA
        cases hao : addOriginal (fillDefaults t1) with
        | error e =>
          rw [hao] at hpeB
          exact Except.noConfusion hpeB
        | ok t3 =>
          rw [hao] at hpeB
          injection hpeB with hpe2
          have hfr : ∀ f : String, f ≠ "account_number_full" → t f = t3 f := by
            intro f hf
            rw [← hpe2]
            exact add_account_number_full_frame t3 f hf
          have hspec3 : t3 "specification" = some (.str s) := by
            rw [← hfr "specification" (by decide)]
            exact hs
          rcases addOriginal_ok_cases hao with ⟨hgd, h3⟩ |
            ⟨s2, hgd, ⟨hm, h3⟩ | ⟨hm, a, c, q, hsp, hq, h3⟩⟩
          · exfalso
            have : (fillDefaults t1) "specification" = some (.str s) := by
              rw [← hspec3, h3]
              simp [dset]
            rw [this] at hgd
            exact PyVal.noConfusion hgd
          · have hs2 : s2 = s := by
              have : (fillDefaults t1) "specification" = some (.str s) := by
                rw [← hspec3, h3]
                simp [dset]
              rw [this] at hgd
              simp at hgd
              exact hgd.symm
            subst hs2
            constructor
            · intro hmf
              constructor
              · rw [hfr "original_amount" (by decide), h3]
                simp [dset]
              · rw [hfr "original_currency" (by decide), h3]
                simp [dset]
            · intro hmt
              rw [hm] at hmt
              cases hmt
          · have hs2 : s2 = s := by
              have : (fillDefaults t1) "specification" = some (.str s) := by
                rw [← hspec3, h3]
                simp [dset]
              rw [this] at hgd
              simp at hgd
              exact hgd.symm
            subst hs2
            constructor
            · intro hmf
              rw [hm] at hmf
              cases hmf
            · intro hmt
              refine ⟨a, c, q, hsp, hq, ?_, ?_⟩
              · rw [hfr "original_amount" (by decide), h3]
                simp [dset]
              · rw [hfr "original_currency" (by decide), h3]
                simp [dset]
  · intro t0 h0 hm hlen
    rw [@addOriginal_spec_str t0 s (by simp [h0]), if_pos hm]
    cases hsp : pySplit s with
    | nil => rfl
    | cons a rest =>
      cases rest with
      | nil => rfl
      | cons c2 rest2 =>
        cases rest2 with
        | nil =>
          rw [hsp] at hlen
          simp at hlen
        | cons d rest3 => rfl

/-- Witness for `specification_extraction_amended`: the one-entry payload
with specification `"7 EUR"` decodes to `original_amount = 7.0`,
`original_currency = "EUR"`. -/
theorem specification_extraction_amended_witness :
    matchAmount "7 EUR" = true ∧
    headTrans (_parse_transactions w5Payload) "original_amount" =
      some (.num 7) ∧
    headTrans (_parse_transactions w5Payload) "original_currency" =
      some (.str "EUR") := by
  have h := specification_extraction_amended
    [.dict [("column18", .dict [("value", .str "7 EUR")])]]
    (okList (_parse_transactions w5Payload))
    (headTrans (_parse_transactions w5Payload)) "7 EUR"
    rfl (List.mem_cons_self _ _) rfl
  obtain ⟨a, c, q, hsp, hq, hamt, hcur⟩ := h.1.2 rfl
  have hsp2 : pySplit "7 EUR" = ["7", "EUR"] := rfl
  rw [hsp2] at hsp
  injection hsp with ha hrest
  injection hrest with hc hnil
  subst ha
  subst hc
  have hq2 : parseFloat "7" = some (7 : Rat) := rfl
  rw [hq2] at hq
  injection hq with hqv
  subst hqv
  exact ⟨rfl, hamt, hcur⟩

theorem mem_truthyFields {cols : List (String × PyVal)} {c : String}
    {v : PyVal} {f : String} {conv : Conv}
    (hm : (c, v) ∈ cols) (hv : truthy v = true)
    (hl : lookupSchema (pyLower c) = some (f, conv)) : f ∈ truthyFields cols := by
  unfold truthyFields
  refine List.mem_filterMap.2 ⟨(c, v), hm, ?_⟩
  simp [hv, hl]

theorem truthyFields_cons_truthy {c0 : String} {v0 : PyVal} {f0 : String}
    {conv0 : Conv} (rest : List (String × PyVal)) (hv : truthy v0 = true)
    (hl : lookupSchema (pyLower c0) = some (f0, conv0)) :
    truthyFields ((c0, v0) :: rest) = f0 :: truthyFields rest := by
  unfold truthyFields
  rw [List.filterMap_cons]
  simp [hv, hl]

theorem truthyFields_cons_falsy {c0 : String} {v0 : PyVal}
    (rest : List (String × PyVal)) (hv : truthy v0 = false) :
    truthyFields ((c0, v0) :: rest) = truthyFields rest := by
  unfold truthyFields
  rw [List.filterMap_cons]
  simp [hv]

theorem processColumns_unset :
    ∀ (cols : List (String × PyVal)) (t t' : Dict) (f : String),
      processColumns t cols = .ok t' →
      (∀ c v, (c, v) ∈ cols → truthy v = true →
        (lookupSchema (pyLower c)).map Prod.fst ≠ some f) →
      t' f = t f := by
  intro cols
  induction cols with
  | nil =>
    intro t t' f h _
    injection h with h2
    rw [← h2]
  | cons p rest ih =>
    intro t t' f h hf
    obtain ⟨c0, v0⟩ := p
    unfold processColumns at h
    by_cases hv : truthy v0 = true
    · rw [if_pos hv] at h
      cases hl : lookupSchema (pyLower c0) with
      | none =>
        rw [hl] at h
        exact Except.noConfusion h
      | some p2 =>
        rw [hl] at h
        obtain ⟨f0, conv0⟩ := p2
        have h2 : (match getItem v0 "value" with
            | .error e => Except.error e
            | .ok raw =>
              match sanitize_value raw (some conv0) with
              | .error e => Except.error e
              | .ok sv => processColumns (dset t f0 sv) rest) =
            Except.ok t' := h
        cases hg : getItem v0 "value" with
        | error e =>
          rw [hg] at h2
          exact Except.noConfusion h2
        | ok raw =>
          rw [hg] at h2
          have h3 : (match sanitize_value raw (some conv0) with
              | .error e => Except.error e
              | .ok sv => processColumns (dset t f0 sv) rest) =
              Except.ok t' := h2
          cases hsv : sanitize_value raw (some conv0) with
          | error e =>
            rw [hsv] at h3
            exact Except.noConfusion h3
          | ok sv =>
            rw [hsv] at h3
            have hne : f ≠ f0 := by
              intro hq
              exact hf c0 v0 (List.mem_cons_self _ _) hv
                (by rw [hl, ← hq]; rfl)
            rw [ih (dset t f0 sv) t' f h3
              (fun c v hm hv2 => hf c v (List.mem_cons_of_mem _ hm) hv2)]
            simp [dset, hne]
    · rw [if_neg hv] at h
      exact ih t t' f h
        (fun c v hm hv2 => hf c v (List.mem_cons_of_mem _ hm) hv2)

theorem processColumns_set :
    ∀ (cols : List (String × PyVal)) (t t' : Dict) (c : String) (v : PyVal)
      (f : String) (conv : Conv),
      processColumns t cols = .ok t' →
      (truthyFields cols).Nodup →
      (c, v) ∈ cols → truthy v = true →
      lookupSchema (pyLower c) = some (f, conv) →
      ∃ raw sv, getItem v "value" = .ok raw ∧
        sanitize_value raw (some conv) = .ok sv ∧ t' f = some sv := by
  intro cols
  induction cols with
  | nil =>
    intro t t' c v f conv _ _ hm
    cases hm
  | cons p rest ih =>
    intro t t' c v f conv h hnd hm hv hl
    obtain ⟨c0, v0⟩ := p
    unfold processColumns at h
    rcases List.mem_cons.1 hm with heq | hmem
    · injection heq with hc0 hv0
      subst hc0
      subst hv0
      rw [if_pos hv, hl] at h
      have h2 : (match getItem v "value" with
          | .error e => Except.error e
          | .ok raw =>
            match sanitize_value raw (some conv) with
            | .error e => Except.error e
            | .ok sv => processColumns (dset t f sv) rest) =
          Except.ok t' := h
      cases hg : getItem v "value" with
      | error e =>
        rw [hg] at h2
        exact Except.noConfusion h2
      | ok raw =>
        rw [hg] at h2
        have h3 : (match sanitize_value raw (some conv) with
            | .error e => Except.error e
            | .ok sv => processColumns (dset t f sv) rest) =
            Except.ok t' := h2
        cases hsv : sanitize_value raw (some conv) with
        | error e =>
          rw [hsv] at h3
          exact Except.noConfusion h3
        | ok sv =>
          rw [hsv] at h3
          refine ⟨raw, sv, rfl, hsv, ?_⟩
          have hnotin : f ∉ truthyFields rest := by
            rw [truthyFields_cons_truthy rest hv hl] at hnd
            exact (List.nodup_cons.1 hnd).1
          have hwr : ∀ c2 v2, (c2, v2) ∈ rest → truthy v2 = true →
              (lookupSchema (pyLower c2)).map Prod.fst ≠ some f := by
            intro c2 v2 hm2 hv2 hl2
            cases hl3 : lookupSchema (pyLower c2) with
            | none =>
              rw [hl3] at hl2
              exact Option.noConfusion hl2
            | some p3 =>
              rw [hl3] at hl2
              obtain ⟨f3, conv3⟩ := p3
              have hf3 : f3 = f := by
                injection hl2
              subst hf3
              exact hnotin (mem_truthyFields hm2 hv2 hl3)
          rw [processColumns_unset rest (dset t f sv) t' f h3 hwr]
          simp [dset]
    · by_cases hv0t : truthy v0 = true
      · rw [if_pos hv0t] at h
        cases hl0 : lookupSchema (pyLower c0) with
        | none =>
          rw [hl0] at h
          exact Except.noConfusion h
        | some p2 =>
          rw [hl0] at h
          obtain ⟨f0, conv0⟩ := p2
          have h2 : (match getItem v0 "value" with
              | .error e => Except.error e
              | .ok raw =>
                match sanitize_value raw (some conv0) with
                | .error e => Except.error e
                | .ok sv => processColumns (dset t f0 sv) rest) =
              Except.ok t' := h
          cases hg : getItem v0 "value" with
          | error e =>
            rw [hg] at h2
            exact Except.noConfusion h2
          | ok raw =>
            rw [hg] at h2
            have h3 : (match sanitize_value raw (some conv0) with
                | .error e => Except.error e
                | .ok sv => processColumns (dset t f0 sv) rest) =
                Except.ok t' := h2
            cases hsv : sanitize_value raw (some conv0) with
            | error e =>
              rw [hsv] at h3
              exact Except.noConfusion h3
            | ok sv =>
              rw [hsv] at h3
              have hnd2 : (truthyFields rest).Nodup := by
                rw [truthyFields_cons_truthy rest hv0t hl0] at hnd
                exact (List.nodup_cons.1 hnd).2
              exact ih (dset t f0 sv) t' c v f conv h3 hnd2 hmem hv hl
      · have hv0f : truthy v0 = false := by
          cases hq : truthy v0
          · rfl
          · exact absurd hq hv0t
        rw [if_neg hv0t] at h
        have hnd2 : (truthyFields rest).Nodup := by
          rw [truthyFields_cons_falsy rest hv0f] at hnd
          exact hnd
        exact ih t t' c v f conv h hnd2 hmem hv hl

theorem foldl_dsetdefault :
    ∀ (l : List (String × String × Conv)) (t : Dict) (f : String),
      (l.foldl (fun acc p => dsetdefault acc p.2.1 PyVal.none) t) f =
        if f ∈ l.map (fun p => p.2.1) then some ((t f).getD PyVal.none)
        else t f := by
  intro l
  induction l with
  | nil =>
    intro t f
    simp
  | cons p rest ih =>
    intro t f
    rw [List.foldl_cons, ih]
    by_cases hf : f = p.2.1 <;>
      by_cases hr : f ∈ rest.map (fun p => p.2.1) <;>
      simp [dsetdefault, hf, hr, List.mem_cons]

theorem fillDefaults_eq (t : Dict) (f : String) :
    fillDefaults t f =
      if f ∈ schemaFieldNames then some ((t f).getD PyVal.none) else t f :=
  foldl_dsetdefault transaction_schema t f

theorem lookupSchema_mem_fields {k f : String} {conv : Conv}
    (h : lookupSchema k = some (f, conv)) : f ∈ schemaFieldNames := by
  unfold lookupSchema at h
  cases hfind : transaction_schema.find? (fun p => p.1 == k) with
  | none =>
    rw [hfind] at h
    exact Option.noConfusion h
  | some p =>
    rw [hfind] at h
    injection h with h2
    have h2b : p.2 = (f, conv) := h2
    unfold schemaFieldNames
    exact List.mem_map.2 ⟨p, List.mem_of_find?_eq_some hfind, by rw [h2b]⟩

theorem parse_entry_fields (cols : List (String × PyVal)) (t : Trans)
    (h : parse_entry (.dict cols) = .ok t)
    (hnd : (truthyFields cols).Nodup) :
    (∀ f, f ∈ schemaFieldNames → t f ≠ Option.none) ∧
    (∀ c v f conv, (c, v) ∈ cols → truthy v = true →
      lookupSchema (pyLower c) = some (f, conv) →
      ∃ raw sv, getItem v "value" = .ok raw ∧
        sanitize_value raw (some conv) = .ok sv ∧ t f = some sv) ∧
    (∀ f, f ∈ schemaFieldNames →
      (∀ c v, (c, v) ∈ cols → truthy v = true →
        (lookupSchema (pyLower c)).map Prod.fst ≠ some f) →
      t f = some PyVal.none) := by
  unfold parse_entry at h
  have hA : (match processColumns emptyDict cols with
      | .error e => Except.error e
      | .ok t1 =>
        match addOriginal (fillDefaults t1) with
        | .error e => Except.error e
        | .ok t2 => Except.ok (add_account_number_full t2)) =
      Except.ok t := h
  cases hpc : processColumns emptyDict cols with
  | error e =>
    rw [hpc] at hA
    exact Except.noConfusion hA
  | ok t1 =>
    rw [hpc] at hA
    have hB : (match addOriginal (fillDefaults t1) with
        | .error e => Except.error e
        | .ok t2 => Except.ok (add_account_number_full t2)) =
        Except.ok t := hA
    cases hao : addOriginal (fillDefaults t1) with
    | error e =>
      rw [hao] at hB
      exact Except.noConfusion hB
    | ok t3 =>
      rw [hao] at hB
      injection hB with hB2
      have hfr : ∀ f : String, f ≠ "original_amount" →
          f ≠ "original_currency" → f ≠ "account_number_full" →
          t f = fillDefaults t1 f := by
        intro f h1 h2 h3
        rw [← hB2, add_account_number_full_frame t3 f h3,
          addOriginal_frame hao f h1 h2]
      have hder : ∀ f, f ∈ schemaFieldNames →
          f ≠ "original_amount" ∧ f ≠ "original_currency" ∧
          f ≠ "account_number_full" := by
        intro f hf
        refine ⟨?_, ?_, ?_⟩ <;> intro hq <;> subst hq <;> revert hf <;> decide
      refine ⟨?_, ?_, ?_⟩
      · intro f hf
        obtain ⟨h1, h2, h3⟩ := hder f hf
        rw [hfr f h1 h2 h3, fillDefaults_eq, if_pos hf]
        simp
      · intro c v f conv hm hv hl
        have hf := lookupSchema_mem_fields hl
        obtain ⟨h1, h2, h3⟩ := hder f hf
        obtain ⟨raw, sv, hg, hsv, hset⟩ :=
          processColumns_set cols emptyDict t1 c v f conv hpc hnd hm hv hl
        refine ⟨raw, sv, hg, hsv, ?_⟩
        rw [hfr f h1 h2 h3, fillDefaults_eq, if_pos hf, hset]
        rfl
      · intro f hf hnone
        obtain ⟨h1, h2, h3⟩ := hder f hf
        rw [hfr f h1 h2 h3, fillDefaults_eq, if_pos hf,
          processColumns_unset cols emptyDict t1 f hpc hnone]
        rfl

/-- C4: for every statement payload that decodes successfully, the decoder
yields exactly one transaction per entry in source order, and each record is
schema-complete: every schema field name is present; a field whose column
was present and truthy holds the sanitized/coerced column value; a field
with no truthy column (absent or empty) holds null.  (The per-entry clause
assumes the entry's truthy columns target distinct fields, which holds for
genuine JSON objects, whose keys are unique.) -/
theorem decode_schema_complete
    (entries : List PyVal) (ts : List Trans)
    (h : _parse_transactions (mkPayload entries) = .ok ts) :
    ts.length = entries.length ∧
    ∀ i (hi : i < entries.length) (hti : i < ts.length)
      (cols : List (String × PyVal)),
      entries.get ⟨i, hi⟩ = PyVal.dict cols →
      (truthyFields cols).Nodup →
      ((∀ f, f ∈ schemaFieldNames → ts.get ⟨i, hti⟩ f ≠ Option.none) ∧
       (∀ c v f conv, (c, v) ∈ cols → truthy v = true →
         lookupSchema (pyLower c) = some (f, conv) →
         ∃ raw sv, getItem v "value" = .ok raw ∧
           sanitize_value raw (some conv) = .ok sv ∧
           ts.get ⟨i, hti⟩ f = some sv) ∧
       (∀ f, f ∈ schemaFieldNames →
         (∀ c v, (c, v) ∈ cols → truthy v = true →
           (lookupSchema (pyLower c)).map Prod.fst ≠ some f) →
         ts.get ⟨i, hti⟩ f = some PyVal.none)) := by
  rw [parse_mkPayload] at h
  obtain ⟨hlen, hget⟩ := mapExcept_ok_spec h
  refine ⟨hlen, ?_⟩
  intro i hi hti cols hcols hnd
  have hpe := hget i hi hti
  rw [hcols] at hpe
  exact parse_entry_fields cols _ hpe hnd

/-- Witness for `decode_schema_complete`: the one-entry payload with a
single `column22` column decodes to one record whose `comment` (no column)
is null and whose `transaction_id` (present column) is set. -/
theorem decode_schema_complete_witness :
    sampleTs.length = 1 ∧
    headTrans (_parse_transactions samplePayload) "comment" =
      some PyVal.none ∧
    headTrans (_parse_transactions samplePayload) "transaction_id" ≠
      Option.none := by
  have h := decode_schema_complete [sampleEntry] sampleTs rfl
  obtain ⟨hlen, hall⟩ := h
  have h0 := hall 0 (by decide) (by rw [hlen]; decide) sampleCols rfl (by decide)
  obtain ⟨hpres, hset, hnone⟩ := h0
  refine ⟨hlen, ?_, ?_⟩
  · have hc := hnone "comment" (by decide) ?_
    · exact hc
    · intro c v hm hv
      simp only [sampleCols, List.mem_singleton] at hm
      rw [Prod.mk.injEq] at hm
      obtain ⟨rfl, rfl⟩ := hm
      decide
  · exact hpres "transaction_id" (by decide)

end Fiobank
